import Mathlib

/-!
Shallow embedding of `src/models.py` (a bicycle rental store).

Modelling conventions:
* Python `datetime` timestamps are modelled as whole numbers of seconds
  (`Int`); `datetime.today()` is modelled by an explicit `now : Int`
  parameter, sampled once per store operation.
* The Python dictionaries for bikes and rentals become the structures
  `Bike` and `Rental`; in-place mutation of those dictionaries becomes
  explicit state passing on `Store`.
* Python exceptions become `Except`; a raised error carries the store as
  it is at the moment the exception escapes (the Python code mutates in
  place, so an exception does not roll back earlier mutations).
* Monetary amounts (Python floats) are modelled as rationals; the float
  literal `0.7` becomes `(7 / 10 : ℚ)`.
* The two regular expressions of `Client.__init__` are embedded as
  executable character-list matchers for exactly those two patterns.
-/

/-- Rental model strings accepted by `Store.addRental`: the source keeps the
model as one of the strings "hourly", "daily", "weekly"; since membership in
that list is validated before a rental is stored, stored models are this
closed enumeration. -/
inductive Model where
  | hourly
  | daily
  | weekly
deriving DecidableEq, Repr

/-- Exceptions raised by `src/models.py`, one constructor per distinct raise
site (plus `attributeError` for the `None.id` dereference that happens in
`calculateRental` when `findClientByEmail` returns `None`). -/
inductive StoreError where
  /-- TypeError "Email invalido." in `Client.__init__`. -/
  | invalidEmail
  /-- TypeError "CPF invalido." in `Client.__init__`. -/
  | invalidCpf
  /-- TypeError "Cliente ja cadastrado." in `Store.addClient`. -/
  | duplicateClient
  /-- ValueError "Tipo de aluguel invalido." in `Store.addRental`. -/
  | invalidModel
  /-- TypeError "A quantidade de alugueis deve ser inteira." in
  `Store.addRental`; unreachable here because the embedding types the
  quantity as an integer, exactly the condition the source checks. -/
  | invalidQuantity
  /-- KeyError "Bicicleta indisponivel." in `Store.addRental`. -/
  | insufficientInventory
  /-- KeyError "Cliente nao cadastrado." in `Store.addRental`. -/
  | unknownClient
  /-- ValueError "Aluguel para familia deve ser de 3 a 5 emprestimos." -/
  | invalidFamilyRange
  /-- ValueError "A data de entrega deve ser depois da data de emprestimo."
  in `Store.calculateTime`. -/
  | invalidInterval
  /-- AttributeError from evaluating `client.id` when `client` is `None`
  inside `Store.calculateRental`. -/
  | attributeError
deriving DecidableEq, Repr

/-- A client record (`Client` in the source). -/
structure Client where
  id : Nat
  name : String
  email : String
  cpf : String
deriving DecidableEq, Repr

/-- A bike record (the bike dictionaries of `Store.bikes`). -/
structure Bike where
  id : Nat
  color : String
  available : Bool
deriving DecidableEq, Repr

/-- A rental record (the rental dictionaries of `Store.rentals`).  The
source's `'end'` key is `end_` here (`end` is a Lean keyword); `None`
becomes `none`. -/
structure Rental where
  model : Model
  family : Bool
  start : Int
  end_ : Option Int
  bikeId : Nat
  clientId : Nat
deriving DecidableEq, Repr

/-- The store state (`Store` in the source). -/
structure Store where
  name : String
  address : String
  clients : List Client
  rentals : List Rental
  bikes : List Bike
deriving DecidableEq, Repr

/-- ASCII digit test, the character class `[0-9]`. -/
def isDigitChar (c : Char) : Bool :=
  '0' ≤ c && c ≤ '9'

/-- The character classes `[A-Z]` and `[a-z]` combined. -/
def isAsciiLetter (c : Char) : Bool :=
  ('A' ≤ c && c ≤ 'Z') || ('a' ≤ c && c ≤ 'z')

/-- The character class `[A-Za-z0-9._%+-]` (email local part). -/
def isLocalChar (c : Char) : Bool :=
  isAsciiLetter c || isDigitChar c || c = '.' || c = '_' || c = '%' ||
    c = '+' || c = '-'

/-- The character class `[A-Za-z0-9.-]` (email domain part). -/
def isDomainChar (c : Char) : Bool :=
  isAsciiLetter c || isDigitChar c || c = '.' || c = '-'

/-- The character class `[A-Z|a-z]` (email "TLD"); the source's class
literally contains the bar character. -/
def isTldChar (c : Char) : Bool :=
  ('A' ≤ c && c ≤ 'Z') || c = '|' || ('a' ≤ c && c ≤ 'z')

/-- Consume exactly `n` digits from the front of `cs`, returning the rest. -/
def takeDigits : Nat → List Char → Option (List Char)
  | 0, cs => some cs
  | _ + 1, [] => none
  | n + 1, c :: cs => if isDigitChar c then takeDigits n cs else none

/-- Consume one optional occurrence of `sep` from the front of `cs`.  This
renders the regex pieces `[\.]?` and `[-]?`: since `'.'` and `'-'` are not
digits, the regex backtracking on these optional pieces is deterministic
(the separator is consumed exactly when it is present). -/
def skipSep (sep : Char) : List Char → List Char
  | [] => []
  | c :: cs => if c = sep then cs else c :: cs

/-- Embedding of `re.fullmatch` for the cpf pattern
`^[0-9]{3}[\.]?[0-9]{3}[\.]?[0-9]{3}[-]?[0-9]{2}$` of `Client.__init__`. -/
def matchesCpf (s : String) : Bool :=
  match takeDigits 3 s.data with
  | none => false
  | some r1 =>
    match takeDigits 3 (skipSep '.' r1) with
    | none => false
    | some r2 =>
      match takeDigits 3 (skipSep '.' r2) with
      | none => false
      | some r3 =>
        match takeDigits 2 (skipSep '-' r3) with
        | none => false
        | some r4 => r4.isEmpty

/-- Match of `[A-Za-z0-9.-]+\.[A-Z|a-z]{2,}` against `cs`: some split
`cs = dom ++ '.' :: tld` with `dom` nonempty over the domain class and
`tld` of length at least two over the TLD class.  Trying every position of
the dot renders the regex's backtracking. -/
def emailTailOk (cs : List Char) : Bool :=
  (List.range cs.length).any fun i =>
    cs.getD i ' ' = '.' && 0 < i && (cs.take i).all isDomainChar &&
      i + 3 ≤ cs.length && (cs.drop (i + 1)).all isTldChar

/-- Embedding of `re.fullmatch` for the email pattern
`^[A-Za-z0-9._%+-]+@[A-Za-z0-9.-]+\.[A-Z|a-z]{2,}$` of `Client.__init__`.
No character class of the pattern contains `@`, so in any full match the
`@` of the pattern is the first `@` of the string. -/
def matchesEmail (s : String) : Bool :=
  match s.data.span fun c => c ≠ '@' with
  | (loc, rest0) =>
    match rest0 with
    | [] => false
    | _ :: rest => !loc.isEmpty && loc.all isLocalChar && emailTailOk rest

/-- Embedding of `Client.__init__`: the `isinstance` checks are rendered by
the types; the email pattern and then the cpf pattern are checked, each
raising a TypeError on failure. -/
def Client.make (id : Nat) (name email cpf : String) : Except StoreError Client :=
  if !matchesEmail email then .error .invalidEmail
  else if !matchesCpf cpf then .error .invalidCpf
  else .ok { id := id, name := name, email := email, cpf := cpf }

/-- Embedding of `Store.findClientByEmail`: first client with this email,
else `None`. -/
def findClientByEmail (clients : List Client) (email : String) : Option Client :=
  clients.find? fun c => c.email == email

/-- Embedding of `Store.addBike`: append a bike with id `len(bikes) + 1`,
available. -/
def addBike (s : Store) (color : String) : Store :=
  { s with bikes := s.bikes ++ [{ id := s.bikes.length + 1, color := color, available := true }] }

/-- Embedding of `Store.addClient`: duplicate-email check, then the
validating `Client` constructor with id `len(clients) + 1`, then append. -/
def addClient (s : Store) (name email cpf : String) : Except (StoreError × Store) Store :=
  if (findClientByEmail s.clients email).isSome then .error (.duplicateClient, s)
  else
    match Client.make (s.clients.length + 1) name email cpf with
    | .error e => .error (e, s)
    | .ok c => .ok { s with clients := s.clients ++ [c] }

/-- The membership test `model in ['hourly', 'daily', 'weekly']` of
`Store.addRental`, returning the stored model on success. -/
def parseModel : String → Option Model
  | "hourly" => some .hourly
  | "daily" => some .daily
  | "weekly" => some .weekly
  | _ => none

/-- Loop body of `Store.getAvailableBikes`: `acc` is the local `bikes`
accumulator; the length test is made at the top of each iteration, before
the availability test, exactly as in the source. -/
def getAvailableBikesAux (quantity : Int) : List Bike → List Bike → List Bike
  | [], acc => acc
  | b :: bs, acc =>
    if (acc.length : Int) = quantity then acc
    else if b.available then getAvailableBikesAux quantity bs (acc ++ [b])
    else getAvailableBikesAux quantity bs acc

/-- Embedding of `Store.getAvailableBikes`.  The quantity is an `Int`
because the source accepts any Python int here, including negative ones
(for which the early-exit length test never fires and every available bike
is collected). -/
def getAvailableBikes (bikes : List Bike) (quantity : Int) : List Bike :=
  getAvailableBikesAux quantity bikes []

/-- State update of the allocation loop of `Store.addRental`: the loop sets
`available = False` on the bike dictionaries selected by
`getAvailableBikes`; those are the first bikes, in insertion order, that
are available, counted by `cnt` until `quantity` of them have been flipped
(never, when `quantity` is negative).  The in-place mutation of the shared
dictionaries is rendered positionally on the store's bike list. -/
def flipSelected (quantity : Int) : List Bike → Int → List Bike
  | [], _ => []
  | b :: bs, cnt =>
    if cnt = quantity then b :: bs
    else if b.available then
      { b with available := false } :: flipSelected quantity bs (cnt + 1)
    else b :: flipSelected quantity bs cnt

/-- Embedding of `Store.addRental`.  The source's local `bikesAvailable`
is written out as `getAvailableBikes s.bikes quantity` (a pure
expression).  Validation order as in the source:
model membership, (quantity int-ness, vacuous here), inventory
sufficiency, client existence, family range; then each selected bike is
flipped to unavailable and one open rental per selected bike is appended,
all sharing `start = now`, the parsed model and the family flag. -/
def addRental (s : Store) (model email : String) (quantity : Int)
    (family : Bool) (now : Int) : Except (StoreError × Store) Store :=
  match parseModel model with
  | none => .error (.invalidModel, s)
  | some m =>
    if ((getAvailableBikes s.bikes quantity).length : Int) < quantity then
      .error (.insufficientInventory, s)
    else
      match findClientByEmail s.clients email with
      | none => .error (.unknownClient, s)
      | some client =>
        if family ∧ ¬(3 ≤ quantity ∧ quantity ≤ 5) then .error (.invalidFamilyRange, s)
        else
          .ok { s with
                bikes := flipSelected quantity s.bikes 0,
                rentals := s.rentals ++ (getAvailableBikes s.bikes quantity).map fun b =>
                  { model := m, family := family, start := now, end_ := none,
                    bikeId := b.id, clientId := client.id } }

/-- Period length in seconds per model: Hourly 3600, Daily 86400, Weekly
604800, as divided by in `Store.calculateTime`. -/
def periodSecs : Model → Nat
  | .hourly => 3600
  | .daily => 86400
  | .weekly => 604800

/-- Embedding of `Store.calculateTime`: reject `end < start`, otherwise
`math.ceil` of elapsed seconds over the period (for whole-second
timestamps, `ceil(n / p) = (n + p - 1) / p` in natural division), then the
final clamp `if value < 1: return 1`. -/
def calculateTime (model : Model) (start end_ : Int) : Except StoreError Nat :=
  if end_ < start then .error .invalidInterval
  else
    let value := ((end_ - start).toNat + periodSecs model - 1) / periodSecs model
    if value < 1 then .ok 1 else .ok value

/-- Per-unit price per model, the literals `5`, `25`, `100` multiplied in
`Store.calculateRental`. -/
def rate : Model → ℚ
  | .hourly => 5
  | .daily => 25
  | .weekly => 100

/-- The settlement loop of `Store.calculateRental` over the rental list:
each rental that is open (`not rent['end']`) and belongs to the client is
closed with `end = now` and priced with `calculateTime`; family amounts
accumulate separately from non-family amounts.  The fourth component
records whether `calculateTime` raised, in which case the faulting rental
is already closed but later rentals are untouched and the accumulated
amounts are discarded by the raise. -/
def settleRentals (clientId : Nat) (now : Int) :
    List Rental → List Rental × ℚ × ℚ × Bool
  | [] => ([], 0, 0, false)
  | r :: rs =>
    if r.end_.isNone && r.clientId == clientId then
      match calculateTime r.model r.start now with
      | .error _ => ({ r with end_ := some now } :: rs, 0, 0, true)
      | .ok units =>
        match settleRentals clientId now rs with
        | (rs', value, valueForFamily, fault) =>
          if r.family then
            ({ r with end_ := some now } :: rs', value,
              (units : ℚ) * rate r.model + valueForFamily, fault)
          else
            ({ r with end_ := some now } :: rs',
              (units : ℚ) * rate r.model + value, valueForFamily, fault)
    else
      match settleRentals clientId now rs with
      | (rs', value, valueForFamily, fault) => (r :: rs', value, valueForFamily, fault)

/-- Embedding of `Store.calculateRental`.

When `findClientByEmail` returns `None` the source still runs: the open
rental comprehension evaluates `client.id` (raising AttributeError) as
soon as some rental is open; otherwise the bike comprehension evaluates
`client.id` (raising AttributeError) as soon as some rental's `bikeId`
equals some bike's id; otherwise both comprehensions are empty, the loop
body never runs, and `value + valueForFamily * 0.7 = 0.0` is returned.

When the client exists, the bike comprehension has no open-rental filter:
every bike referenced by ANY rental of the client (open or closed) is set
available, then each open rental of the client is closed and priced. -/
def calculateRental (s : Store) (email : String) (now : Int) :
    Except (StoreError × Store) (ℚ × Store) :=
  match findClientByEmail s.clients email with
  | none =>
    if s.rentals.any fun r => r.end_.isNone then .error (.attributeError, s)
    else if s.bikes.any (fun b => s.rentals.any fun r => r.bikeId == b.id) then
      .error (.attributeError, s)
    else .ok (0, s)
  | some client =>
    let bikes' := s.bikes.map fun b =>
      if s.rentals.any (fun r => r.bikeId == b.id && r.clientId == client.id) then
        { b with available := true }
      else b
    match settleRentals client.id now s.rentals with
    | (rentals', value, valueForFamily, fault) =>
      if fault then .error (.invalidInterval, { s with bikes := bikes', rentals := rentals' })
      else .ok (value + valueForFamily * (7 / 10 : ℚ), { s with bikes := bikes', rentals := rentals' })

/-- The value computed by `calculateTime` on a non-negative interval. -/
def unitsNat (m : Model) (start now : Int) : Nat :=
  if ((now - start).toNat + periodSecs m - 1) / periodSecs m < 1 then 1
  else ((now - start).toNat + periodSecs m - 1) / periodSecs m

/-- The unit count as the specification states it: the ceiling of elapsed
seconds over the period length, floored at one unit. -/
def specUnits (m : Model) (start now : Int) : ℤ :=
  max 1 ⌈((now - start : ℤ) : ℚ) / (periodSecs m : ℚ)⌉

theorem periodSecs_pos (m : Model) : 0 < periodSecs m := by
  cases m <;> decide

theorem calculateTime_ok (m : Model) (start now : Int) (h : start ≤ now) :
    calculateTime m start now = .ok (unitsNat m start now) := by
  simp only [calculateTime, if_neg (not_lt.mpr h), unitsNat]
  split <;> rfl

theorem natCeilDiv_eq (n p : ℕ) (hp : 0 < p) :
    (((n + p - 1) / p : ℕ) : ℤ) = ⌈(n : ℚ) / (p : ℚ)⌉ := by
  have hp' : (0 : ℚ) < (p : ℚ) := by exact_mod_cast hp
  set k : ℕ := (n + p - 1) / p with hk
  have hk1 : k * p ≤ n + p - 1 := Nat.div_mul_le_self _ _
  have hk2 : n ≤ k * p := by
    by_contra hlt
    push_neg at hlt
    have hexp : (k + 1) * p = k * p + p := by ring
    have h3 : (k + 1) * p ≤ n + p - 1 := by omega
    have h4 : k + 1 ≤ (n + p - 1) / p := (Nat.le_div_iff_mul_le hp).mpr h3
    omega
  have hk3 : k * p < n + p := by omega
  have hub : (n : ℚ) / (p : ℚ) ≤ (k : ℚ) := by
    rw [div_le_iff₀ hp']
    exact_mod_cast hk2
  have hlb : ((k : ℚ) - 1) < (n : ℚ) / (p : ℚ) := by
    rw [lt_div_iff₀ hp']
    have hc : ((k * p : ℕ) : ℚ) < ((n + p : ℕ) : ℚ) := by exact_mod_cast hk3
    push_cast at hc
    nlinarith
  have hceil_le : ⌈(n : ℚ) / (p : ℚ)⌉ ≤ (k : ℤ) := Int.ceil_le.mpr hub
  have hlt2 : ((k : ℤ) - 1) < ⌈(n : ℚ) / (p : ℚ)⌉ := Int.lt_ceil.mpr (by push_cast; exact hlb)
  omega

theorem unitsNat_eq_specUnits (m : Model) (start now : Int) (h : start ≤ now) :
    (unitsNat m start now : ℤ) = specUnits m start now := by
  have hp : 0 < periodSecs m := periodSecs_pos m
  have hn : ((now - start).toNat : ℤ) = now - start := Int.toNat_of_nonneg (by omega)
  have hcast : ((now - start : ℤ) : ℚ) = (((now - start).toNat : ℕ) : ℚ) := by
    exact_mod_cast hn.symm
  rw [unitsNat, specUnits, hcast, ← natCeilDiv_eq _ _ hp]
  have h1 : ∀ v : ℕ, (if v < 1 then 1 else v) = max 1 v := fun v => by
    by_cases hv : v < 1
    · rw [if_pos hv, max_eq_left (by omega)]
    · rw [if_neg hv, max_eq_right (by omega)]
  rw [h1]
  push_cast [Nat.cast_max]
  rfl

theorem unitsNat_zero_elapsed (m : Model) (t : Int) : unitsNat m t t = 1 := by
  have hp := periodSecs_pos m
  have h : (t - t).toNat = 0 := by omega
  rw [unitsNat, h]
  have h2 : (0 + periodSecs m - 1) / periodSecs m = 0 := Nat.div_eq_of_lt (by omega)
  rw [h2]
  rfl

theorem unitsNat_one_period (m : Model) (t : Int) :
    unitsNat m t (t + periodSecs m) = 1 := by
  have hp := periodSecs_pos m
  have h : (t + (periodSecs m : Int) - t).toNat = periodSecs m := by omega
  have h2 : (periodSecs m + periodSecs m - 1) / periodSecs m = 1 := by
    apply Nat.div_eq_of_lt_le <;> omega
  rw [unitsNat, h, h2]
  rfl

theorem unitsNat_one_period_plus (m : Model) (t : Int) :
    unitsNat m t (t + periodSecs m + 1) = 2 := by
  have hp := periodSecs_pos m
  have h : (t + (periodSecs m : Int) + 1 - t).toNat = periodSecs m + 1 := by omega
  have h2 : (periodSecs m + 1 + periodSecs m - 1) / periodSecs m = 2 := by
    apply Nat.div_eq_of_lt_le <;> omega
  rw [unitsNat, h, h2]
  rfl

/-- C3: for every model and timestamps with end at least start,
`calculateTime` returns `max 1 (ceiling (elapsed seconds / period))` with
periods Hourly 3600 s, Daily 86400 s, Weekly 604800 s; in particular an
elapsed time of 0 s gives 1 unit, exactly one period gives 1 unit, one
period plus one second gives 2 units; and it fails with the invalid
interval error whenever end is before start. -/
theorem calculateTime_spec (m : Model) (start e : Int) :
    (start ≤ e → calculateTime m start e = .ok (specUnits m start e).toNat)
    ∧ (e < start → calculateTime m start e = .error .invalidInterval)
    ∧ calculateTime m start start = .ok 1
    ∧ calculateTime m start (start + periodSecs m) = .ok 1
    ∧ calculateTime m start (start + periodSecs m + 1) = .ok 2 := by
  refine ⟨fun h => ?_, fun h => ?_, ?_, ?_, ?_⟩
  · rw [calculateTime_ok m start e h]
    have := unitsNat_eq_specUnits m start e h
    congr 1
    omega
  · rw [calculateTime, if_pos h]
  · rw [calculateTime_ok m start start le_rfl, unitsNat_zero_elapsed]
  · rw [calculateTime_ok m start _ (by omega), unitsNat_one_period]
  · rw [calculateTime_ok m start _ (by have := periodSecs_pos m; omega), unitsNat_one_period_plus]

/-- Witness for C3: evaluates the theorem at the hour model with elapsed
7201 s, and the error branch at an end before the start. -/
theorem calculateTime_spec_witness :
    calculateTime .hourly 0 7201 = .ok (specUnits .hourly 0 7201).toNat
    ∧ calculateTime .hourly 5 0 = .error .invalidInterval :=
  ⟨(calculateTime_spec .hourly 0 7201).1 (by decide),
   (calculateTime_spec .hourly 5 0).2.1 (by decide)⟩

theorem getAvailableBikesAux_eq (quantity : Int) (hq : 0 ≤ quantity) :
    ∀ (bs : List Bike) (acc : List Bike), (acc.length : Int) ≤ quantity →
      getAvailableBikesAux quantity bs acc =
        acc ++ (bs.filter fun b => b.available).take (quantity.toNat - acc.length)
  | [], acc, _ => by simp [getAvailableBikesAux]
  | b :: bs, acc, hlen => by
    by_cases hfull : (acc.length : Int) = quantity
    · have h0 : quantity.toNat - acc.length = 0 := by omega
      simp [getAvailableBikesAux, hfull, h0]
    · have hlt : acc.length < quantity.toNat := by omega
      rw [getAvailableBikesAux, if_neg hfull]
      by_cases hav : b.available
      · rw [if_pos hav,
          getAvailableBikesAux_eq quantity hq bs (acc ++ [b]) (by simp; omega)]
        have h3 : quantity.toNat - acc.length = (quantity.toNat - (acc ++ [b]).length) + 1 := by
          simp
          omega
        rw [h3, List.filter_cons_of_pos (by simp [hav]), List.take_succ_cons]
        simp
      · rw [if_neg hav, getAvailableBikesAux_eq quantity hq bs acc hlen,
          List.filter_cons_of_neg (by simp [hav])]

theorem getAvailableBikes_eq_take_filter (bikes : List Bike) (quantity : Int)
    (hq : 0 ≤ quantity) :
    getAvailableBikes bikes quantity =
      (bikes.filter fun b => b.available).take quantity.toNat := by
  have h := getAvailableBikesAux_eq quantity hq bikes [] (by simp; omega)
  simpa [getAvailableBikes] using h

/-- C8: for every inventory and nonnegative quantity, the selection is
exactly the prefix of the available bikes in insertion order, hence of
length at most the quantity and containing only available bikes. -/
theorem getAvailableBikes_spec (bikes : List Bike) (quantity : Int) (hq : 0 ≤ quantity) :
    getAvailableBikes bikes quantity =
      (bikes.filter fun b => b.available).take quantity.toNat
    ∧ (getAvailableBikes bikes quantity).length ≤ quantity.toNat
    ∧ ∀ b ∈ getAvailableBikes bikes quantity, b.available = true := by
  have h := getAvailableBikes_eq_take_filter bikes quantity hq
  refine ⟨h, ?_, ?_⟩
  · rw [h]
    simp
  · intro b hb
    rw [h] at hb
    exact (List.mem_filter.mp (List.take_subset _ _ hb)).2

/-- C8 counterexample: for the negative quantity -1 on a store with one
available bike, `getAvailableBikes` returns that bike, a sequence whose
length (1) is not at most the requested quantity (-1). -/
theorem getAvailableBikes_negative_quantity_cex :
    getAvailableBikes [{ id := 1, color := "red", available := true }] (-1) =
      [{ id := 1, color := "red", available := true }]
    ∧ ¬(((getAvailableBikes [{ id := 1, color := "red", available := true }] (-1)).length : Int) ≤ -1) :=
  ⟨by rfl, by decide⟩

/-- Witness for C8: evaluates the theorem on a two-bike inventory with
quantity 1. -/
theorem getAvailableBikes_spec_witness :
    getAvailableBikes [{ id := 1, color := "red", available := false },
        { id := 2, color := "blue", available := true }] 1 =
      ([{ id := 1, color := "red", available := false },
        { id := 2, color := "blue", available := true }].filter fun b => b.available).take (1 : Int).toNat :=
  (getAvailableBikes_spec _ 1 (by decide)).1

/-- Flip the first `n` available bikes, in insertion order, to unavailable:
the specification-side description of the allocation update. -/
def flipFirst : List Bike → Nat → List Bike
  | [], _ => []
  | b :: bs, n =>
    if n = 0 then b :: bs
    else if b.available then { b with available := false } :: flipFirst bs (n - 1)
    else b :: flipFirst bs n

theorem flipSelected_eq_flipFirst (quantity : Int) (hq : 0 ≤ quantity) :
    ∀ (bs : List Bike) (cnt : Int), 0 ≤ cnt → cnt ≤ quantity →
      flipSelected quantity bs cnt = flipFirst bs (quantity - cnt).toNat
  | [], cnt, _, _ => by simp [flipSelected, flipFirst]
  | b :: bs, cnt, h0, hle => by
    by_cases hfull : cnt = quantity
    · have h1 : (quantity - cnt).toNat = 0 := by omega
      rw [flipSelected, if_pos hfull, flipFirst, h1, if_pos rfl]
    · have hne : (quantity - cnt).toNat ≠ 0 := by omega
      rw [flipSelected, if_neg hfull, flipFirst, if_neg hne]
      by_cases hav : b.available
      · rw [if_pos hav, if_pos hav,
          flipSelected_eq_flipFirst quantity hq bs (cnt + 1) (by omega) (by omega)]
        have h2 : (quantity - (cnt + 1)).toNat = (quantity - cnt).toNat - 1 := by omega
        rw [h2]
      · rw [if_neg hav, if_neg hav,
          flipSelected_eq_flipFirst quantity hq bs cnt h0 (by omega)]

theorem flipFirst_countP :
    ∀ (bs : List Bike) (n : Nat), n ≤ bs.countP (fun b => b.available) →
      (flipFirst bs n).countP (fun b => b.available) + n =
        bs.countP (fun b => b.available)
  | [], n, h => by
    simp at h
    simp [flipFirst, h]
  | b :: bs, n, h => by
    by_cases h0 : n = 0
    · simp [flipFirst, h0]
    · rw [flipFirst, if_neg h0]
      by_cases hav : b.available
      · have hr := flipFirst_countP bs (n - 1)
          (by simp [List.countP_cons, hav] at h; omega)
        rw [if_pos hav]
        simp [List.countP_cons, hav]
        omega
      · have hr := flipFirst_countP bs n
          (by simp [List.countP_cons, hav] at h; omega)
        rw [if_neg hav]
        simp [List.countP_cons, hav]
        omega

/-- Store with one registered client (Alice, id 1) and one available bike
(id 1), for concrete counterexamples and witnesses. -/
def oneBikeStore : Store :=
  { name := "s", address := "a",
    clients := [{ id := 1, name := "Alice", email := "a@a.aa", cpf := "12345678900" }],
    rentals := [], bikes := [{ id := 1, color := "red", available := true }] }

/-- C5 (amended): every successful `addRental` call with a nonnegative
quantity selects exactly `quantity` bikes -- the first available ones in
insertion order -- flips exactly those to unavailable, and appends exactly
`quantity` open rental records, all carrying the identical start
timestamp, model and family flag; a negative quantity instead succeeds
while renting every available bike (see the counterexample). -/
theorem addRental_success_spec (s s' : Store) (model email : String) (quantity : Int)
    (family : Bool) (now : Int) (hq : 0 ≤ quantity)
    (hok : addRental s model email quantity family now = .ok s') :
    ∃ m client, parseModel model = some m
      ∧ findClientByEmail s.clients email = some client
      ∧ ((s.bikes.filter fun b => b.available).take quantity.toNat).length = quantity.toNat
      ∧ s'.rentals = s.rentals ++
          ((s.bikes.filter fun b => b.available).take quantity.toNat).map (fun b =>
            { model := m, family := family, start := now, end_ := none,
              bikeId := b.id, clientId := client.id })
      ∧ s'.bikes = flipFirst s.bikes quantity.toNat
      ∧ s'.clients = s.clients
      ∧ s'.bikes.countP (fun b => b.available) + quantity.toNat =
          s.bikes.countP (fun b => b.available) := by
  rw [addRental] at hok
  split at hok
  · exact absurd hok (by simp)
  next m hm =>
    split at hok
    · exact absurd hok (by simp)
    next hlen =>
      split at hok
      · exact absurd hok (by simp)
      next client hc =>
        split at hok
        · exact absurd hok (by simp)
        next hfam =>
          have hs' : s' = { s with
              bikes := flipSelected quantity s.bikes 0,
              rentals := s.rentals ++ (getAvailableBikes s.bikes quantity).map fun b =>
                { model := m, family := family, start := now, end_ := none,
                  bikeId := b.id, clientId := client.id } } := by
            simpa using hok.symm
          have hga := getAvailableBikes_eq_take_filter s.bikes quantity hq
          have hcount : ((s.bikes.filter fun b => b.available).take quantity.toNat).length
              = quantity.toNat := by
            rw [hga] at hlen
            have := List.length_take quantity.toNat (s.bikes.filter fun b => b.available)
            omega
          have hflip : flipSelected quantity s.bikes 0 = flipFirst s.bikes quantity.toNat := by
            rw [flipSelected_eq_flipFirst quantity hq s.bikes 0 (by omega) (by omega)]
            congr 1
            omega
          refine ⟨m, client, hm, hc, hcount, ?_, ?_, ?_, ?_⟩
          · rw [hs', hga]
          · rw [hs', hflip]
          · rw [hs']
          · rw [hs', hflip]
            apply flipFirst_countP
            have := List.countP_eq_length_filter (fun b => b.available) s.bikes
            have := List.length_take quantity.toNat (s.bikes.filter fun b => b.available)
            omega

/-- The state `addRental` produces from `oneBikeStore` when it rents the
one available bike. -/
def oneBikeStoreRented : Store :=
  { name := "s", address := "a",
    clients := [{ id := 1, name := "Alice", email := "a@a.aa", cpf := "12345678900" }],
    rentals := [{ model := .hourly, family := false, start := 0, end_ := none,
                  bikeId := 1, clientId := 1 }],
    bikes := [{ id := 1, color := "red", available := false }] }

/-- Store with one registered client (Alice, id 1) and no bikes. -/
def clientOnlyStore : Store :=
  { name := "s", address := "a",
    clients := [{ id := 1, name := "Alice", email := "a@a.aa", cpf := "12345678900" }],
    rentals := [], bikes := [] }

/-- C4 counterexample: with quantity 0 -- not a positive integer --
`addRental` succeeds (no InvalidQuantityError, no error at all), renting
nothing. -/
theorem addRental_zero_quantity_cex :
    addRental clientOnlyStore "hourly" "a@a.aa" 0 false 0 = .ok clientOnlyStore := by
  rfl

/-- C4 (amended): `addRental` never raises the invalid-quantity error for
an integer quantity (the source checks only that the quantity is an int,
which the integer typing renders always true); in particular quantity 0
with a valid model, a registered client and family off succeeds and
leaves the store unchanged. -/
theorem addRental_zero_quantity_spec (s : Store) (model email : String) (now : Int)
    (m : Model) (client : Client) (hm : parseModel model = some m)
    (hc : findClientByEmail s.clients email = some client) :
    addRental s model email 0 false now = .ok s := by
  have h1 : getAvailableBikes s.bikes 0 = [] := by
    cases s.bikes with
    | nil => rfl
    | cons b bs => rfl
  have h2 : flipSelected 0 s.bikes 0 = s.bikes := by
    cases s.bikes with
    | nil => rfl
    | cons b bs => rfl
  rw [addRental, hm]
  simp only [h1, h2]
  rw [if_neg (by simp), hc]
  dsimp only
  rw [if_neg (by simp)]
  cases s
  simp

/-- Witness for C4's amended theorem at a concrete store. -/
theorem addRental_zero_quantity_spec_witness :
    addRental oneBikeStore "hourly" "a@a.aa" 0 false 5 = .ok oneBikeStore :=
  addRental_zero_quantity_spec oneBikeStore "hourly" "a@a.aa" 5 .hourly
    { id := 1, name := "Alice", email := "a@a.aa", cpf := "12345678900" } (by rfl) (by rfl)

/-- C5 counterexample: a successful call with quantity -1 appends one open
rental (and flips one bike), not "exactly quantity" of them: the rental
count changes by 1, not by -1. -/
theorem addRental_negative_quantity_cex :
    addRental oneBikeStore "hourly" "a@a.aa" (-1) false 0 = .ok oneBikeStoreRented
    ∧ oneBikeStoreRented.rentals.length = 1
    ∧ ¬((oneBikeStoreRented.rentals.length : Int) =
          (oneBikeStore.rentals.length : Int) + (-1)) :=
  ⟨by rfl, by rfl, by decide⟩

/-- Witness for C5's amended theorem: renting one bike from the one-bike
store. -/
theorem addRental_success_spec_witness :
    ∃ m client, parseModel "hourly" = some m
      ∧ findClientByEmail oneBikeStore.clients "a@a.aa" = some client
      ∧ ((oneBikeStore.bikes.filter fun b => b.available).take (1 : Int).toNat).length = (1 : Int).toNat
      ∧ oneBikeStoreRented.rentals = oneBikeStore.rentals ++
          ((oneBikeStore.bikes.filter fun b => b.available).take (1 : Int).toNat).map (fun b =>
            { model := m, family := false, start := 0, end_ := none,
              bikeId := b.id, clientId := client.id })
      ∧ oneBikeStoreRented.bikes = flipFirst oneBikeStore.bikes (1 : Int).toNat
      ∧ oneBikeStoreRented.clients = oneBikeStore.clients
      ∧ oneBikeStoreRented.bikes.countP (fun b => b.available) + (1 : Int).toNat =
          oneBikeStore.bikes.countP (fun b => b.available) :=
  addRental_success_spec oneBikeStore oneBikeStoreRented "hourly" "a@a.aa" 1 false 0
    (by decide) (by rfl)

/-- C7: whenever `addRental` raises any of its errors, the store state at
the raise is the state the call was given: no bike flipped, no rental
appended (every raise in the source happens before the mutation loop). -/
theorem addRental_error_preserves_state (s : Store) (model email : String)
    (quantity : Int) (family : Bool) (now : Int) (e : StoreError) (s' : Store)
    (herr : addRental s model email quantity family now = .error (e, s')) :
    s' = s := by
  rw [addRental] at herr
  split at herr
  · simp at herr
    exact herr.2.symm
  next m hm =>
    split at herr
    · simp at herr
      exact herr.2.symm
    next hlen =>
      split at herr
      · simp at herr
        exact herr.2.symm
      next client hc =>
        split at herr
        · simp at herr
          exact herr.2.symm
        next hfam => exact absurd herr (by simp)

/-- Witness for C7: the invalid-model error on a concrete store. -/
theorem addRental_error_preserves_state_witness : oneBikeStore = oneBikeStore :=
  addRental_error_preserves_state oneBikeStore "monthly" "a@a.aa" 1 false 0
    .invalidModel oneBikeStore (by rfl)

theorem map_congr_mem {α β : Type} :
    ∀ (l : List α) (f g : α → β), (∀ a ∈ l, f a = g a) → l.map f = l.map g
  | [], _, _, _ => rfl
  | a :: l, f, g, h => by
    rw [List.map_cons, List.map_cons, h a (List.mem_cons_self a l),
      map_congr_mem l f g fun x hx => h x (List.mem_cons_of_mem _ hx)]

theorem filter_eq_nil_of_none {α : Type} :
    ∀ (l : List α) (p : α → Bool), (∀ a ∈ l, p a = false) → l.filter p = []
  | [], _, _ => rfl
  | a :: l, p, h => by
    rw [List.filter_cons, h a (List.mem_cons_self a l)]
    simp only [Bool.false_eq_true, if_false]
    exact filter_eq_nil_of_none l p fun x hx => h x (List.mem_cons_of_mem _ hx)

theorem map_id_of_fix {α : Type} :
    ∀ (l : List α) (f : α → α), (∀ a ∈ l, f a = a) → l.map f = l
  | [], _, _ => rfl
  | a :: l, f, h => by
    rw [List.map_cons, h a (List.mem_cons_self a l),
      map_id_of_fix l f fun x hx => h x (List.mem_cons_of_mem _ hx)]

theorem settleRentals_eq (cid : Nat) (now : Int) :
    ∀ rs : List Rental, (∀ r ∈ rs, r.end_ = none → r.clientId = cid → r.start ≤ now) →
      settleRentals cid now rs =
        (rs.map fun r =>
           if r.end_.isNone && r.clientId == cid then { r with end_ := some now } else r,
         ((rs.filter fun r => r.end_.isNone && r.clientId == cid && !r.family).map fun r =>
            (unitsNat r.model r.start now : ℚ) * rate r.model).sum,
         ((rs.filter fun r => r.end_.isNone && r.clientId == cid && r.family).map fun r =>
            (unitsNat r.model r.start now : ℚ) * rate r.model).sum,
         false)
  | [], _ => by simp [settleRentals]
  | r :: rs, h => by
    have ih := settleRentals_eq cid now rs fun x hx => h x (List.mem_cons_of_mem _ hx)
    by_cases hopen : (r.end_.isNone && r.clientId == cid) = true
    · have hparts : r.end_ = none ∧ r.clientId = cid := by simpa using hopen
      have he : r.end_ = none := hparts.1
      have hcid : r.clientId = cid := hparts.2
      have hct := calculateTime_ok r.model r.start now (h r (List.mem_cons_self r rs) he hcid)
      rw [settleRentals, if_pos hopen, hct, ih]
      by_cases hf : r.family
      · simp [hopen, hf, he, hcid, List.filter_cons]
      · simp [hopen, hf, he, hcid, List.filter_cons]
    · have hprop : ¬(r.end_ = none ∧ r.clientId = cid) := by simpa using hopen
      rw [settleRentals, if_neg hopen, ih]
      simp [hopen, hprop, List.filter_cons]

theorem units_cast_eq (m : Model) (start now : Int) (h : start ≤ now) :
    ((unitsNat m start now : ℕ) : ℚ) = ((specUnits m start now : ℤ) : ℚ) := by
  have := unitsNat_eq_specUnits m start now h
  exact_mod_cast congrArg (Int.cast : ℤ → ℚ) this

/-- C2: for every registered client (with every open rental started no
later than the settlement time), settlement returns value plus
valueForFamily times 0.7, where value is the sum over the client's open
non-family rentals of units times rate(model), valueForFamily the same sum
over the open family rentals, rate Hourly 5, Daily 25, Weekly 100, and the
30 percent family discount is applied once to the aggregated family
subtotal. -/
theorem calculateRental_amount_spec (s : Store) (email : String) (now : Int) (client : Client)
    (hc : findClientByEmail s.clients email = some client)
    (hnow : ∀ r ∈ s.rentals, r.end_ = none → r.clientId = client.id → r.start ≤ now) :
    ∃ s', calculateRental s email now =
      .ok (((s.rentals.filter fun r =>
               r.end_.isNone && r.clientId == client.id && !r.family).map fun r =>
              ((specUnits r.model r.start now : ℤ) : ℚ) * rate r.model).sum
           + (((s.rentals.filter fun r =>
                 r.end_.isNone && r.clientId == client.id && r.family).map fun r =>
                ((specUnits r.model r.start now : ℤ) : ℚ) * rate r.model).sum) * (7 / 10 : ℚ),
           s') := by
  have hval : ∀ p : Rental → Bool,
      (∀ r ∈ s.rentals, p r = true → (r.end_ = none ∧ r.clientId = client.id)) →
      ((s.rentals.filter p).map fun r =>
          (unitsNat r.model r.start now : ℚ) * rate r.model).sum
        = ((s.rentals.filter p).map fun r =>
            ((specUnits r.model r.start now : ℤ) : ℚ) * rate r.model).sum := by
    intro p hp
    rw [map_congr_mem]
    intro r hr
    have hm := List.mem_filter.mp hr
    have h2 := hp r hm.1 hm.2
    rw [units_cast_eq r.model r.start now (hnow r hm.1 h2.1 h2.2)]
  have hval1 := hval (fun r => r.end_.isNone && r.clientId == client.id && !r.family)
    (fun r _ hpr => by
      simp at hpr
      exact hpr.1)
  have hval2 := hval (fun r => r.end_.isNone && r.clientId == client.id && r.family)
    (fun r _ hpr => by
      simp at hpr
      exact hpr.1)
  exact ⟨_, by
    rw [calculateRental, hc]
    dsimp only
    rw [settleRentals_eq client.id now s.rentals hnow]
    dsimp only
    rw [if_neg (by simp), hval1, hval2]⟩

/-- C10: for every registered client with no open rentals, settlement
succeeds, returns 0, and leaves every rental record (and the client list)
unchanged: already-closed rentals never get a new end and never contribute
to a later settlement's amount. -/
theorem calculateRental_no_open_rentals_spec (s : Store) (email : String) (now : Int)
    (client : Client) (hc : findClientByEmail s.clients email = some client)
    (hclosed : ∀ r ∈ s.rentals, r.clientId = client.id → r.end_ ≠ none) :
    ∃ s', calculateRental s email now = .ok (0, s') ∧ s'.rentals = s.rentals
      ∧ s'.clients = s.clients := by
  have hnow : ∀ r ∈ s.rentals, r.end_ = none → r.clientId = client.id → r.start ≤ now :=
    fun r hr he hcid => absurd he (hclosed r hr hcid)
  have hnone : ∀ r ∈ s.rentals, (r.end_.isNone && r.clientId == client.id) = false := by
    intro r hr
    cases hx : (r.end_.isNone && r.clientId == client.id) with
    | false => rfl
    | true =>
      have h2 : r.end_ = none ∧ r.clientId = client.id := by simpa using hx
      exact absurd h2.1 (hclosed r hr h2.2)
  refine ⟨{ s with bikes := s.bikes.map fun b =>
      if s.rentals.any (fun r => r.bikeId == b.id && r.clientId == client.id) then
        { b with available := true } else b }, ?_, rfl, rfl⟩
  rw [calculateRental, hc]
  dsimp only
  rw [settleRentals_eq client.id now s.rentals hnow]
  dsimp only
  rw [if_neg (by simp)]
  have hfilter1 : (s.rentals.filter fun r =>
      r.end_.isNone && r.clientId == client.id && !r.family) = [] :=
    filter_eq_nil_of_none _ _ fun r hr => by
      rw [hnone r hr, Bool.false_and]
  have hfilter2 : (s.rentals.filter fun r =>
      r.end_.isNone && r.clientId == client.id && r.family) = [] :=
    filter_eq_nil_of_none _ _ fun r hr => by
      rw [hnone r hr, Bool.false_and]
  have hmap : (s.rentals.map fun r =>
      if r.end_.isNone && r.clientId == client.id then
        { r with end_ := some now } else r) = s.rentals :=
    map_id_of_fix _ _ fun r hr => by
      rw [hnone r hr]
      rfl
  rw [hfilter1, hfilter2, hmap]
  norm_num

/-- A store with no clients, rentals or bikes. -/
def emptyStore : Store :=
  { name := "s", address := "a", clients := [], rentals := [], bikes := [] }

/-- C6: on a store whose rental list is empty, `calculateRental` with an
email that resolves to no client returns 0.0 without raising anything and
without changing state -- it does not fail with an unknown-client error as
the specification demands (and when rentals do exist, the failure it
produces is an accidental AttributeError from dereferencing None, not a
designed unknown-client error). -/
theorem calculateRental_unknown_email_no_failure :
    calculateRental oneBikeStore "ghost@x.yy" 0 = .ok (0, oneBikeStore) := by rfl

/-- The C1 invariant, decidably: a bike is unavailable exactly when some
open rental references it. -/
def availabilityInvariantHolds (s : Store) : Bool :=
  s.bikes.all fun b =>
    (!b.available) == s.rentals.any fun r => r.end_.isNone && r.bikeId == b.id

/-- Reachable scenario for C1: Alice rents the only bike and settles (the
rental closes, the bike returns); then Bob rents the same bike; then Alice
settles again. -/
def c1Scenario : Except (StoreError × Store) Store := do
  let s1 := addBike emptyStore "red"
  let s2 ← addClient s1 "Alice" "a@a.aa" "12345678900"
  let s3 ← addClient s2 "Bob" "b@b.bb" "98765432100"
  let s4 ← addRental s3 "hourly" "a@a.aa" 1 false 0
  let (_, s5) ← calculateRental s4 "a@a.aa" 3600
  let s6 ← addRental s5 "hourly" "b@b.bb" 1 false 7200
  let (_, s7) ← calculateRental s6 "a@a.aa" 9000
  pure s7

/-- The state `c1Scenario` ends in: Bob's rental of bike 1 is still open,
yet bike 1 is available. -/
def c1FinalStore : Store :=
  { name := "s", address := "a",
    clients := [{ id := 1, name := "Alice", email := "a@a.aa", cpf := "12345678900" },
                { id := 2, name := "Bob", email := "b@b.bb", cpf := "98765432100" }],
    rentals := [{ model := .hourly, family := false, start := 0, end_ := some 3600,
                  bikeId := 1, clientId := 1 },
                { model := .hourly, family := false, start := 7200, end_ := none,
                  bikeId := 1, clientId := 2 }],
    bikes := [{ id := 1, color := "red", available := true }] }

/-- C1: the availability invariant is not preserved by settlement.  In the
reachable scenario `c1Scenario`, Alice's second settlement -- though she
has no open rentals -- sets bike 1 available because a CLOSED rental of
hers references it (the source's bike comprehension lacks the open-rental
filter), while Bob's open rental still references bike 1: the final state
has the bike available yet referenced by an open rental. -/
theorem calculateRental_breaks_availability_invariant :
    c1Scenario = .ok c1FinalStore
    ∧ availabilityInvariantHolds c1FinalStore = false
    ∧ (c1FinalStore.bikes.map fun b => b.available) = [true]
    ∧ (c1FinalStore.rentals.map fun r => r.end_.isNone) = [false, true] :=
  ⟨rfl, rfl, rfl, rfl⟩

/-- Store whose one client has one open hourly rental started at time 0. -/
def openRentalStore : Store :=
  { name := "s", address := "a",
    clients := [{ id := 1, name := "Alice", email := "a@a.aa", cpf := "12345678900" }],
    rentals := [{ model := .hourly, family := false, start := 0, end_ := none,
                  bikeId := 1, clientId := 1 }],
    bikes := [{ id := 1, color := "red", available := false }] }

/-- Witness for C2: settling the one open hourly rental after one hour. -/
theorem calculateRental_amount_spec_witness :
    ∃ s', calculateRental openRentalStore "a@a.aa" 3600 =
      .ok (((openRentalStore.rentals.filter fun r =>
               r.end_.isNone && r.clientId == (1 : Nat) && !r.family).map fun r =>
              ((specUnits r.model r.start 3600 : ℤ) : ℚ) * rate r.model).sum
           + (((openRentalStore.rentals.filter fun r =>
                 r.end_.isNone && r.clientId == (1 : Nat) && r.family).map fun r =>
                ((specUnits r.model r.start 3600 : ℤ) : ℚ) * rate r.model).sum) * (7 / 10 : ℚ),
           s') :=
  calculateRental_amount_spec openRentalStore "a@a.aa" 3600
    { id := 1, name := "Alice", email := "a@a.aa", cpf := "12345678900" } (by rfl)
    (fun r hr he hcid => by
      simp only [openRentalStore, List.mem_singleton] at hr
      subst hr
      decide)

/-- Store whose one client has one rental, already closed. -/
def closedRentalStore : Store :=
  { name := "s", address := "a",
    clients := [{ id := 1, name := "Alice", email := "a@a.aa", cpf := "12345678900" }],
    rentals := [{ model := .hourly, family := false, start := 0, end_ := some 10,
                  bikeId := 1, clientId := 1 }],
    bikes := [{ id := 1, color := "red", available := true }] }

/-- Witness for C10: settling a client whose only rental is closed. -/
theorem calculateRental_no_open_rentals_spec_witness :
    ∃ s', calculateRental closedRentalStore "a@a.aa" 20 = .ok (0, s')
      ∧ s'.rentals = closedRentalStore.rentals ∧ s'.clients = closedRentalStore.clients :=
  calculateRental_no_open_rentals_spec closedRentalStore "a@a.aa" 20
    { id := 1, name := "Alice", email := "a@a.aa", cpf := "12345678900" } (by rfl)
    (fun r hr hcid => by
      simp only [closedRentalStore, List.mem_singleton] at hr
      subst hr
      simp)

theorem takeDigits_append :
    ∀ (n : Nat) (ds r : List Char), ds.length = n → (∀ c ∈ ds, isDigitChar c = true) →
      takeDigits n (ds ++ r) = some r
  | 0, [], r, _, _ => rfl
  | n + 1, c :: ds, r, hlen, hd => by
    rw [List.cons_append, takeDigits, if_pos (hd c (List.mem_cons_self c ds)),
      takeDigits_append n ds r (by simpa using hlen)
        fun x hx => hd x (List.mem_cons_of_mem _ hx)]

theorem takeDigits_some_inv :
    ∀ (n : Nat) (cs r : List Char), takeDigits n cs = some r →
      ∃ ds, cs = ds ++ r ∧ ds.length = n ∧ ∀ c ∈ ds, isDigitChar c = true
  | 0, cs, r, h => by
    simp only [takeDigits, Option.some.injEq] at h
    exact ⟨[], by simp [h], rfl, by simp⟩
  | n + 1, [], r, h => by simp [takeDigits] at h
  | n + 1, c :: cs, r, h => by
    rw [takeDigits] at h
    by_cases hd : isDigitChar c
    · rw [if_pos hd] at h
      obtain ⟨ds, h1, h2, h3⟩ := takeDigits_some_inv n cs r h
      refine ⟨c :: ds, by simp [h1], by simp [h2], ?_⟩
      intro x hx
      rcases List.mem_cons.mp hx with h | h
      · subst h
        exact hd
      · exact h3 x h
    · rw [if_neg hd] at h
      exact absurd h (by simp)

theorem skipSep_decomp (sep : Char) (r : List Char) :
    ∃ s1, (s1 = [] ∨ s1 = [sep]) ∧ r = s1 ++ skipSep sep r := by
  cases r with
  | nil => exact ⟨[], Or.inl rfl, rfl⟩
  | cons c tl =>
    by_cases hc : c = sep
    · subst hc
      exact ⟨[c], Or.inr rfl, by simp [skipSep]⟩
    · exact ⟨[], Or.inl rfl, by simp [skipSep, hc]⟩

theorem skipSep_past (sep c : Char) (s1 tl : List Char) (hs1 : s1 = [] ∨ s1 = [sep])
    (hc : isDigitChar c = true) (hsep : isDigitChar sep = false) :
    skipSep sep (s1 ++ c :: tl) = c :: tl := by
  rcases hs1 with h | h
  · subst h
    have hne : c ≠ sep := fun he => by
      rw [he, hsep] at hc
      exact Bool.noConfusion hc
    simp [skipSep, hne]
  · subst h
    simp [skipSep]

/-- The language the specification describes for cpf validation: eleven
digits in groups of 3-3-3-2, each of the three canonical separators
(`.` after groups one and two, `-` after group three) independently
present or absent. -/
def CpfShape (s : String) : Prop :=
  ∃ g1 g2 g3 g4 s1 s2 s3 : List Char,
    g1.length = 3 ∧ g2.length = 3 ∧ g3.length = 3 ∧ g4.length = 2 ∧
    (∀ c ∈ g1 ++ g2 ++ g3 ++ g4, isDigitChar c = true) ∧
    (s1 = [] ∨ s1 = ['.']) ∧ (s2 = [] ∨ s2 = ['.']) ∧ (s3 = [] ∨ s3 = ['-']) ∧
    s.data = g1 ++ s1 ++ g2 ++ s2 ++ g3 ++ s3 ++ g4

/-- C9: the cpf check of `Client.__init__` (the pattern `matchesCpf`,
applied by `Client.make`) accepts exactly the strings of eleven digits
grouped 3-3-3-2 with each canonical separator (a dot after the first and
second groups, a dash after the third) independently present or absent,
and rejects every other string. -/
theorem cpf_validation_spec (s : String) : matchesCpf s = true ↔ CpfShape s := by
  constructor
  · intro h
    rw [matchesCpf] at h
    split at h
    · exact absurd h (by simp)
    next r1 h1 =>
      split at h
      · exact absurd h (by simp)
      next r2 h2 =>
        split at h
        · exact absurd h (by simp)
        next r3 h3 =>
          split at h
          · exact absurd h (by simp)
          next r4 h4 =>
            have hr4 : r4 = [] := by
              cases r4 with
              | nil => rfl
              | cons a b => simp [List.isEmpty] at h
            obtain ⟨g1, e1, l1, d1⟩ := takeDigits_some_inv 3 s.data r1 h1
            obtain ⟨s1, hs1, hr1⟩ := skipSep_decomp '.' r1
            obtain ⟨g2, e2, l2, d2⟩ := takeDigits_some_inv 3 (skipSep '.' r1) r2 h2
            obtain ⟨s2, hs2, hr2⟩ := skipSep_decomp '.' r2
            obtain ⟨g3, e3, l3, d3⟩ := takeDigits_some_inv 3 (skipSep '.' r2) r3 h3
            obtain ⟨s3, hs3, hr3⟩ := skipSep_decomp '-' r3
            obtain ⟨g4, e4, l4, d4⟩ := takeDigits_some_inv 2 (skipSep '-' r3) r4 h4
            refine ⟨g1, g2, g3, g4, s1, s2, s3, l1, l2, l3, l4, ?_, hs1, hs2, hs3, ?_⟩
            · intro c hc
              simp only [List.append_assoc, List.mem_append] at hc
              rcases hc with h | h | h | h
              · exact d1 c h
              · exact d2 c h
              · exact d3 c h
              · exact d4 c h
            · rw [e1, hr1, e2, hr2, e3, hr3, e4, hr4]
              simp [List.append_assoc]
  · rintro ⟨g1, g2, g3, g4, s1, s2, s3, l1, l2, l3, l4, hd, hs1, hs2, hs3, heq⟩
    have hd1 : ∀ c ∈ g1, isDigitChar c = true := fun c hc => hd c (by simp [hc])
    have hd2 : ∀ c ∈ g2, isDigitChar c = true := fun c hc => hd c (by simp [hc])
    have hd3 : ∀ c ∈ g3, isDigitChar c = true := fun c hc => hd c (by simp [hc])
    have hd4 : ∀ c ∈ g4, isDigitChar c = true := fun c hc => hd c (by simp [hc])
    obtain ⟨c2, t2, hg2⟩ : ∃ c t, g2 = c :: t := by
      cases g2 with
      | nil => simp at l2
      | cons a b => exact ⟨a, b, rfl⟩
    obtain ⟨c3, t3, hg3⟩ : ∃ c t, g3 = c :: t := by
      cases g3 with
      | nil => simp at l3
      | cons a b => exact ⟨a, b, rfl⟩
    obtain ⟨c4, t4, hg4⟩ : ∃ c t, g4 = c :: t := by
      cases g4 with
      | nil => simp at l4
      | cons a b => exact ⟨a, b, rfl⟩
    have e : s.data = g1 ++ (s1 ++ (c2 :: (t2 ++ (s2 ++ (c3 :: (t3 ++ (s3 ++ c4 :: t4))))))) := by
      rw [heq, hg2, hg3, hg4]
      simp [List.append_assoc]
    have e2 : c2 :: (t2 ++ (s2 ++ (c3 :: (t3 ++ (s3 ++ c4 :: t4)))))
        = g2 ++ (s2 ++ (c3 :: (t3 ++ (s3 ++ c4 :: t4)))) := by
      rw [hg2]
      simp
    have e3 : c3 :: (t3 ++ (s3 ++ c4 :: t4)) = g3 ++ (s3 ++ c4 :: t4) := by
      rw [hg3]
      simp
    have e4 : c4 :: t4 = g4 ++ [] := by
      rw [hg4]
      simp
    rw [matchesCpf, e, takeDigits_append 3 g1 _ l1 hd1]
    dsimp only
    rw [skipSep_past '.' c2 s1 _ hs1 (hd2 c2 (by simp [hg2])) (by decide), e2,
      takeDigits_append 3 g2 _ l2 hd2]
    dsimp only
    rw [skipSep_past '.' c3 s2 _ hs2 (hd3 c3 (by simp [hg3])) (by decide), e3,
      takeDigits_append 3 g3 _ l3 hd3]
    dsimp only
    rw [skipSep_past '-' c4 s3 _ hs3 (hd4 c4 (by simp [hg4])) (by decide), e4,
      takeDigits_append 2 g4 _ l4 hd4]
    rfl
